import Mathlib

/-!
Verification of the Rackspace/OpenStack compute driver
(`libcloud/compute/drivers/rackspace.py`) against its specification.

The Python source is shallowly embedded: XML element trees become the
inductive `Element`, Python dicts become association lists with
insert-overwrite semantics (`dictInsert` / `pyDict`), values that may be
Python `None` become `Option String`, and exceptions become `Except`.
The HTTP transport is an external collaborator, so operations take the
transport's response (status code and decoded body) as an argument.
-/

namespace Rackspace

/-- The XML namespace constant `NAMESPACE` from the source. -/
def NAMESPACE : String := "http://docs.rackspacecloud.com/servers/api/v1.0"

/-- An `xml.etree.ElementTree` element: a tag, an attribute dict, optional
text and a list of children.  Attribute values reached via `el.get` are
`Option String` (Python returns `None` for a missing attribute). -/
inductive Element where
  | mk (tag : String) (attrib : List (String × String))
       (text : Option String) (children : List Element)

def Element.tag : Element → String
  | .mk t _ _ _ => t

def Element.attrib : Element → List (String × String)
  | .mk _ a _ _ => a

def Element.text : Element → Option String
  | .mk _ _ t _ => t

def Element.children : Element → List Element
  | .mk _ _ _ c => c

/-- Python's `el.get(key)`: the attribute value, or `None` when absent. -/
def elGet (el : Element) (key : String) : Option String :=
  el.attrib.lookup key

/-- Insert-with-overwrite into a Python dict modelled as an association
list: `d[k] = v` replaces the value at an existing key in place and
otherwise appends the new pair. -/
def dictInsert {K V : Type} [BEq K] : List (K × V) → K → V → List (K × V)
  | [], k, v => [(k, v)]
  | (k', v') :: rest, k, v =>
      if k' == k then (k', v) :: rest else (k', v') :: dictInsert rest k v

/-- Python's `dict(pairs)`: successive insertion, later pairs with the
same key overwrite earlier ones. -/
def pyDict {K V : Type} [BEq K] (l : List (K × V)) : List (K × V) :=
  l.foldl (fun d kv => dictInsert d kv.1 kv.2) []

/-- Python's `str.split(sep)` on the underlying character list. -/
def splitChars (sep : Char) : List Char → List (List Char)
  | [] => [[]]
  | c :: rest =>
      let r := splitChars sep rest
      if c = sep then [] :: r
      else
        match r with
        | [] => [[c]]
        | g :: gs => (c :: g) :: gs

/-- `s.split(sep)` for a one-character separator. -/
def pySplit (s : String) (sep : Char) : List String :=
  (splitChars sep s.data).map (fun g => String.mk g)

/-- `s.lower()`. -/
def pyLower (s : String) : String := String.mk (s.data.map Char.toLower)

/-- `s.find(sub) > -1`: `sub` occurs as a contiguous substring of `s`. -/
def strContains (s sub : String) : Bool := decide (sub.data.IsInfix s.data)

/-- `'%s' % v` for a value that may be Python `None`. -/
def pyStr : Option String → String
  | some s => s
  | none => "None"

/-- The namespace-qualified tag `{NAMESPACE}t` produced by `_fixxpath`
for one path segment. -/
def qtag (t : String) : String := "\x7b" ++ NAMESPACE ++ "\x7d" ++ t

/-- `_fixxpath`: every segment of the xpath becomes its
namespace-qualified form.  (The source joins the segments back with "/"
into the string that `ElementTree.findall` re-splits; we keep the
segment list.) -/
def fixxpath (xpath : String) : List String :=
  (pySplit xpath '/').map qtag

/-- One `findall` path step: all children of the given elements carrying
the given tag, in order. -/
def findallAux : List Element → List String → List Element
  | es, [] => es
  | es, t :: ts =>
      findallAux (es.flatMap (fun e => e.children.filter (fun c => c.tag == t))) ts

/-- `_findall(element, xpath)`:
`element.findall(self._fixxpath(xpath))` with ElementTree's relative
path semantics (each segment descends one level of children). -/
def _findall (el : Element) (xpath : String) : List Element :=
  findallAux [el] (fixxpath xpath)

/-- The generic node lifecycle enum `NodeState`. -/
inductive NodeState where
  | PENDING | RUNNING | REBOOTING | TERMINATED | UNKNOWN
deriving DecidableEq

/-- The `NODE_STATE_MAP` dict literal of `RackspaceNodeDriver`, in source
order.  (The Python literal lists the key REBUILD twice, both mapping to
PENDING; dict-literal semantics keep the later entry.) -/
def NODE_STATE_MAP_literal : List (String × NodeState) :=
  [("BUILD", .PENDING),
   ("REBUILD", .PENDING),
   ("ACTIVE", .RUNNING),
   ("SUSPENDED", .TERMINATED),
   ("QUEUE_RESIZE", .PENDING),
   ("PREP_RESIZE", .PENDING),
   ("VERIFY_RESIZE", .RUNNING),
   ("PASSWORD", .PENDING),
   ("RESCUE", .PENDING),
   ("REBUILD", .PENDING),
   ("REBOOT", .REBOOTING),
   ("HARD_REBOOT", .REBOOTING),
   ("SHARE_IP", .PENDING),
   ("SHARE_IP_NO_CONFIG", .PENDING),
   ("DELETE_IP", .PENDING),
   ("UNKNOWN", .UNKNOWN)]

/-- The `NODE_STATE_MAP` dict itself. -/
def NODE_STATE_MAP : List (String × NodeState) := pyDict NODE_STATE_MAP_literal

/-- `self.NODE_STATE_MAP.get(el.get('status'), NodeState.UNKNOWN)` from
`_to_node`: the argument is `el.get('status')`, which is `None` for a
missing status attribute; `None` is not a key of the dict, so `.get`
then yields the `UNKNOWN` default. -/
def nodeStateMapGet (status : Option String) : NodeState :=
  match status with
  | none => NodeState.UNKNOWN
  | some s => (NODE_STATE_MAP.lookup s).getD NodeState.UNKNOWN

theorem lookup_eq_none_of_forall_ne {V : Type} (d : List (String × V)) (s : String)
    (h : ∀ kv ∈ d, kv.1 ≠ s) : d.lookup s = none := by
  induction d with
  | nil => rfl
  | cons kv rest ih =>
      have h1 : kv.1 ≠ s := h kv (List.mem_cons_self kv rest)
      have hbeq : (s == kv.1) = false := by
        rw [beq_eq_false_iff_ne]
        exact fun hs => h1 hs.symm
      have ht : List.lookup s (kv :: rest) = List.lookup s rest := by
        rw [show kv = (kv.1, kv.2) from rfl, List.lookup, hbeq]
      rw [ht]
      exact ih fun kv' hkv' => h kv' (List.mem_cons_of_mem kv hkv')

/-- The keys of the status table. -/
def stateMapKeys : List String :=
  ["BUILD", "REBUILD", "ACTIVE", "SUSPENDED", "QUEUE_RESIZE", "PREP_RESIZE",
   "VERIFY_RESIZE", "PASSWORD", "RESCUE", "REBOOT", "HARD_REBOOT",
   "SHARE_IP", "SHARE_IP_NO_CONFIG", "DELETE_IP", "UNKNOWN"]

/-- C1: normalization follows the fixed table, maps every unlisted string
and a missing status to UNKNOWN, and is total (it is a Lean function). -/
theorem nodeStateMap_normalization :
    nodeStateMapGet (some "BUILD") = .PENDING ∧
    nodeStateMapGet (some "REBUILD") = .PENDING ∧
    nodeStateMapGet (some "ACTIVE") = .RUNNING ∧
    nodeStateMapGet (some "SUSPENDED") = .TERMINATED ∧
    nodeStateMapGet (some "QUEUE_RESIZE") = .PENDING ∧
    nodeStateMapGet (some "PREP_RESIZE") = .PENDING ∧
    nodeStateMapGet (some "VERIFY_RESIZE") = .RUNNING ∧
    nodeStateMapGet (some "PASSWORD") = .PENDING ∧
    nodeStateMapGet (some "RESCUE") = .PENDING ∧
    nodeStateMapGet (some "REBOOT") = .REBOOTING ∧
    nodeStateMapGet (some "HARD_REBOOT") = .REBOOTING ∧
    nodeStateMapGet (some "SHARE_IP") = .PENDING ∧
    nodeStateMapGet (some "SHARE_IP_NO_CONFIG") = .PENDING ∧
    nodeStateMapGet (some "DELETE_IP") = .PENDING ∧
    nodeStateMapGet (some "UNKNOWN") = .UNKNOWN ∧
    nodeStateMapGet none = .UNKNOWN ∧
    (∀ s : String, s ∉ stateMapKeys → nodeStateMapGet (some s) = .UNKNOWN) := by
  refine ⟨rfl, rfl, rfl, rfl, rfl, rfl, rfl, rfl, rfl, rfl, rfl, rfl, rfl, rfl,
    rfl, rfl, ?_⟩
  intro s hs
  have hkeys : ∀ kv ∈ NODE_STATE_MAP, kv.1 ∈ stateMapKeys := by decide
  have hnone : NODE_STATE_MAP.lookup s = none := by
    refine lookup_eq_none_of_forall_ne _ _ ?_
    intro kv hkv heq
    exact hs (heq ▸ hkeys kv hkv)
  simp [nodeStateMapGet, hnone]

/-- Witness for C1 at the unlisted string "GARBAGE". -/
theorem nodeStateMap_normalization_witness :
    "GARBAGE" ∉ stateMapKeys ∧ nodeStateMapGet (some "GARBAGE") = .UNKNOWN :=
  ⟨by decide, nodeStateMap_normalization.2.2.2.2.2.2.2.2.2.2.2.2.2.2.2.2
    "GARBAGE" (by decide)⟩

/-- The `extra` dict of a `NodeImage` as populated by `_to_image`. -/
structure ImageExtra where
  updated : Option String
  created : Option String
  status : Option String
  serverId : Option String
  progress : Option String
deriving DecidableEq

/-- A `NodeImage` as built by this driver (the `driver` back-reference
carries no data and is omitted). -/
structure NodeImage where
  id : Option String
  name : Option String
  extra : ImageExtra
deriving DecidableEq

/-- `_to_image(el)`. -/
def _to_image (el : Element) : NodeImage :=
  { id := elGet el "id",
    name := elGet el "name",
    extra := { updated := elGet el "updated",
               created := elGet el "created",
               status := elGet el "status",
               serverId := elGet el "serverId",
               progress := elGet el "progress" } }

/-- `_to_images(object)`: map `_to_image` over the `image` elements
whose `status` attribute equals "ACTIVE". -/
def _to_images (object : Element) : List NodeImage :=
  ((_findall object "image").filter
    (fun el => elGet el "status" == some "ACTIVE")).map _to_image

/-- C2: the image list has exactly one mapped image per image element
with status "ACTIVE", and every image in it comes from an element whose
status attribute is "ACTIVE". -/
theorem to_images_active_filter (object : Element) :
    (_to_images object).length =
      ((_findall object "image").filter
        (fun el => elGet el "status" == some "ACTIVE")).length ∧
    (∀ img ∈ _to_images object, ∃ el ∈ _findall object "image",
      elGet el "status" = some "ACTIVE" ∧ img = _to_image el) := by
  constructor
  · simp [_to_images]
  · intro img hmem
    simp only [_to_images, List.mem_map, List.mem_filter] at hmem
    obtain ⟨el, ⟨hel, hstat⟩, rfl⟩ := hmem
    exact ⟨el, hel, by simpa using hstat, rfl⟩

/-- An image-list response with statuses ACTIVE, SAVING, ACTIVE. -/
def exImagesResponse : Element :=
  .mk (qtag "images") [] none
    [.mk (qtag "image") [("id", "1"), ("name", "a"), ("status", "ACTIVE")] none [],
     .mk (qtag "image") [("id", "2"), ("name", "b"), ("status", "SAVING")] none [],
     .mk (qtag "image") [("id", "3"), ("name", "c"), ("status", "ACTIVE")] none []]

/-- Witness for C2: the example response of 3 images with statuses
ACTIVE, SAVING, ACTIVE yields exactly 2 images, and the first of them
comes from an ACTIVE element. -/
theorem to_images_active_filter_witness :
    (_to_images exImagesResponse).length = 2 ∧
    (∃ el ∈ _findall exImagesResponse "image",
      elGet el "status" = some "ACTIVE" ∧
      _to_image (.mk (qtag "image") [("id", "1"), ("name", "a"), ("status", "ACTIVE")]
        none []) = _to_image el) :=
  ⟨by decide,
   (to_images_active_filter exImagesResponse).2
     (_to_image (.mk (qtag "image") [("id", "1"), ("name", "a"), ("status", "ACTIVE")]
       none [])) (by decide)⟩

/-- `ex_save_image(node, name)` given the transport's decoded response
body: the pair of the request element it sends (an `image` element with
the namespace, the new name and the node id) and `_to_image` of the
response object. -/
def ex_save_image (name : String) (nodeId : String) (respObject : Element) :
    Element × NodeImage :=
  (.mk "image" [("xmlns", NAMESPACE), ("name", name), ("serverId", nodeId)] none [],
   _to_image respObject)

/-- C9: save-image maps the returned image element without any status
filter: even for a non-ACTIVE status it returns the mapped image
(carrying that status), whereas the image-list mapping over a response
holding only that element filters it out. -/
theorem ex_save_image_no_status_filter (name nodeId : String) (el : Element)
    (s : String) (hs : elGet el "status" = some s) (hne : s ≠ "ACTIVE") :
    (ex_save_image name nodeId el).2 = _to_image el ∧
    ((ex_save_image name nodeId el).2).extra.status = some s ∧
    (el.tag = qtag "image" →
      ∀ a t, _to_images (.mk (qtag "images") a t [el]) = []) := by
  refine ⟨rfl, ?_, ?_⟩
  · simp [ex_save_image, _to_image, hs]
  · intro htag a t
    have hfind : _findall (.mk (qtag "images") a t [el]) "image" = [el] := by
      simp [_findall, fixxpath, pySplit, splitChars, findallAux, Element.children,
        htag]
    have hfalse : (elGet el "status" == some "ACTIVE") = false := by
      rw [hs]
      simp [hne]
    simp [_to_images, hfind, hfalse]

/-- A saved-image response element in status SAVING. -/
def exSavingImage : Element :=
  .mk (qtag "image")
    [("id", "77"), ("name", "snap"), ("status", "SAVING"), ("serverId", "42")]
    none []

/-- Witness for C9 at a SAVING image element. -/
theorem ex_save_image_no_status_filter_witness :
    (ex_save_image "snap" "42" exSavingImage).2.extra.status = some "SAVING" ∧
    _to_images (.mk (qtag "images") [] none [exSavingImage]) = [] :=
  ⟨(ex_save_image_no_status_filter "snap" "42" exSavingImage "SAVING"
      (by decide) (by decide)).2.1,
   (ex_save_image_no_status_filter "snap" "42" exSavingImage "SAVING"
      (by decide) (by decide)).2.2 rfl [] none⟩

/-- `get_meta_dict` from `_to_node`: a dict built from the `key`
attribute and text of each `meta` element, later entries overwriting
earlier ones. -/
def get_meta_dict (elems : List Element) : List (Option String × Option String) :=
  elems.foldl (fun d meta => dictInsert d (elGet meta "key") meta.text) []

/-- `get_ips` from `_to_node`: the `addr` attribute of each element. -/
def get_ips (elems : List Element) : List (Option String) :=
  elems.map (fun ip => elGet ip "addr")

/-- The `extra` dict of a `Node` as populated by `_to_node`. -/
structure NodeExtra where
  password : Option String
  hostId : Option String
  imageId : Option String
  flavorId : Option String
  uri : String
  metadata : List (Option String × Option String)
deriving DecidableEq

/-- A `Node` as built by this driver (the `driver` back-reference
carries no data and is omitted). -/
structure Node where
  id : Option String
  name : Option String
  state : NodeState
  public_ip : List (Option String)
  private_ip : List (Option String)
  extra : NodeExtra
deriving DecidableEq

/-- `_to_node(el)`, given the connection's `host` and `request_path`
used for the canonical URI. -/
def _to_node (host request_path : String) (el : Element) : Node :=
  { id := elGet el "id",
    name := elGet el "name",
    state := nodeStateMapGet (elGet el "status"),
    public_ip := get_ips (_findall el "addresses/public/ip"),
    private_ip := get_ips (_findall el "addresses/private/ip"),
    extra := { password := elGet el "adminPass",
               hostId := elGet el "hostId",
               imageId := elGet el "imageId",
               flavorId := elGet el "flavorId",
               uri := "https://" ++ host ++ request_path ++ "/servers/" ++
                 pyStr (elGet el "id"),
               metadata := get_meta_dict (_findall el "metadata/meta") } }

/-- The `server` attribute dict sent by `_change_password_or_name`:
`name` falls back to the node's current name when the argument is
missing or falsy, and `adminPass` is added only when a password is
supplied.  Values are `Option String` because `node.name` may be
`None`. -/
def modify_body (node : Node) (name password : Option String) :
    List (String × Option String) :=
  let name' := match name with
    | none => node.name
    | some s => if s = "" then node.name else some s
  let body := [("xmlns", some NAMESPACE), ("name", name')]
  match password with
  | some p => dictInsert body "adminPass" (some p)
  | none => body

/-- `_change_password_or_name(node, name, password)` given the status of
the transport's response to the PUT: the request attribute dict it
sends, the returned boolean (`resp.status == 204`), and the node after
the call (its `extra['password']` is assigned exactly when the status is
204 and a password was supplied). -/
def _change_password_or_name (node : Node) (name password : Option String)
    (respStatus : Nat) :
    (List (String × Option String)) × Bool × Node :=
  let body := modify_body node name password
  let node' := if respStatus = 204 ∧ password ≠ none
               then { node with extra := { node.extra with password := password } }
               else node
  (body, decide (respStatus = 204), node')

/-- `ex_set_password(node, password)`. -/
def ex_set_password (node : Node) (password : String) (respStatus : Nat) :
    (List (String × Option String)) × Bool × Node :=
  _change_password_or_name node none (some password) respStatus

/-- `ex_set_server_name(node, name)`. -/
def ex_set_server_name (node : Node) (name : String) (respStatus : Nat) :
    (List (String × Option String)) × Bool × Node :=
  _change_password_or_name node (some name) none respStatus

/-- C3: on a 204 response `ex_set_password` returns true and sets only
the node's extra password field to the new value; on any other status it
returns false and leaves the node exactly as it was. -/
theorem ex_set_password_frame (node : Node) (p : String) (st : Nat) :
    (st = 204 → (ex_set_password node p st).2 =
      (true, { node with extra := { node.extra with password := some p } })) ∧
    (st ≠ 204 → (ex_set_password node p st).2 = (false, node)) := by
  constructor
  · intro h
    simp [ex_set_password, _change_password_or_name, h]
  · intro h
    simp [ex_set_password, _change_password_or_name, h]

/-- A sample in-memory node. -/
def exNode : Node :=
  { id := some "12", name := some "web1", state := .RUNNING,
    public_ip := [some "1.2.3.4"], private_ip := [some "10.0.0.4"],
    extra := { password := some "oldpw", hostId := some "h1",
               imageId := some "2", flavorId := some "1",
               uri := "https://servers.api.rackspacecloud.com/v1.0/77/servers/12",
               metadata := [] } }

/-- Witness for C3 at statuses 204 and 500. -/
theorem ex_set_password_frame_witness :
    (ex_set_password exNode "newpw" 204).2 =
      (true, { exNode with extra := { exNode.extra with password := some "newpw" } }) ∧
    (ex_set_password exNode "newpw" 500).2 = (false, exNode) :=
  ⟨(ex_set_password_frame exNode "newpw" 204).1 rfl,
   (ex_set_password_frame exNode "newpw" 500).2 (by decide)⟩

/-- C10: the modify payload always carries a `name` attribute, and when
the caller supplies no name (or a falsy one) its value is the node's
current name. -/
theorem modify_payload_always_has_name (node : Node) (name password : Option String)
    (st : Nat) :
    ((((_change_password_or_name node name password st).1).lookup "name").isSome
      = true) ∧
    ((name = none ∨ name = some "") →
      (((_change_password_or_name node name password st).1).lookup "name")
        = some node.name) := by
  have hbody : ((_change_password_or_name node name password st).1).lookup "name" =
      some (match name with
            | none => node.name
            | some s => if s = "" then node.name else some s) := by
    cases password <;>
      simp [_change_password_or_name, modify_body, dictInsert, List.lookup]
  refine ⟨by rw [hbody]; rfl, ?_⟩
  rintro (h | h) <;> (subst h; rw [hbody]; try simp)

/-- Witness for C10: a password-only change still sends the node's
current name. -/
theorem modify_payload_always_has_name_witness :
    (((_change_password_or_name exNode none (some "newpw") 204).1).lookup "name")
      = some (some "web1") :=
  (modify_payload_always_has_name exNode none (some "newpw") 204).2 (Or.inl rfl)

/-- `ex_get_node_details(node_id)` given the transport's response status
and decoded body: a 404 yields the not-found sentinel `none`, anything
else maps the body through `_to_node`. -/
def ex_get_node_details (host request_path : String) (respStatus : Nat)
    (respObject : Element) : Option Node :=
  if respStatus = 404 then none
  else some (_to_node host request_path respObject)

/-- C4: get-node-details returns the not-found sentinel on a 404 and the
mapped node on a 2xx response. -/
theorem ex_get_node_details_not_found (host request_path : String)
    (respStatus : Nat) (respObject : Element) :
    (respStatus = 404 →
      ex_get_node_details host request_path respStatus respObject = none) ∧
    (200 ≤ respStatus → respStatus ≤ 299 →
      ex_get_node_details host request_path respStatus respObject =
        some (_to_node host request_path respObject)) := by
  constructor
  · intro h
    simp [ex_get_node_details, h]
  · intro h1 h2
    have hne : respStatus ≠ 404 := by omega
    simp [ex_get_node_details, hne]

/-- A minimal server-details response element. -/
def exServerEl : Element :=
  .mk (qtag "server") [("id", "12"), ("name", "web1"), ("status", "ACTIVE")] none []

/-- Witness for C4 at statuses 404 and 200. -/
theorem ex_get_node_details_not_found_witness :
    ex_get_node_details "servers.api.rackspacecloud.com" "/v1.0/77" 404 exServerEl
      = none ∧
    ex_get_node_details "servers.api.rackspacecloud.com" "/v1.0/77" 200 exServerEl
      = some (_to_node "servers.api.rackspacecloud.com" "/v1.0/77" exServerEl) :=
  ⟨(ex_get_node_details_not_found "servers.api.rackspacecloud.com" "/v1.0/77" 404
      exServerEl).1 rfl,
   (ex_get_node_details_not_found "servers.api.rackspacecloud.com" "/v1.0/77" 200
      exServerEl).2 (by decide) (by decide)⟩

theorem lookup_dictInsert_self {K V : Type} [BEq K] [LawfulBEq K]
    (d : List (K × V)) (k : K) (v : V) :
    (dictInsert d k v).lookup k = some v := by
  induction d with
  | nil => simp [dictInsert, List.lookup]
  | cons kv rest ih =>
      rw [show kv = (kv.1, kv.2) from rfl, dictInsert]
      by_cases h : kv.1 = k
      · subst h
        simp [List.lookup]
      · have hb : (kv.1 == k) = false := by simp [h]
        have hb' : (k == kv.1) = false := by
          simp
          exact fun he => h he.symm
        simp only [hb, if_false, List.lookup, hb']
        exact ih

theorem lookup_dictInsert_ne {K V : Type} [BEq K] [LawfulBEq K]
    (d : List (K × V)) (k k' : K) (v : V) (h : k' ≠ k) :
    (dictInsert d k v).lookup k' = d.lookup k' := by
  have hb' : (k' == k) = false := by simp [h]
  induction d with
  | nil => simp [dictInsert, List.lookup, hb']
  | cons kv rest ih =>
      rw [show kv = (kv.1, kv.2) from rfl, dictInsert]
      by_cases hk : kv.1 = k
      · subst hk
        simp only [beq_self_eq_true, if_true, List.lookup, hb']
      · have hb : (kv.1 == k) = false := by simp [hk]
        simp only [hb, if_false, List.lookup]
        cases hkk : k' == kv.1 <;> simp [ih]

/-- `_to_rate(el)` from `ex_limits`: a dict of all attributes. -/
def _to_rate (el : Element) : List (String × String) :=
  el.attrib.foldl (fun rate item => dictInsert rate item.1 item.2) []

/-- `_to_absolute(el)` from `ex_limits`: the one-entry dict
`{el.get('name'): el.get('value')}`. -/
def _to_absolute (el : Element) : List (Option String × Option String) :=
  [(elGet el "name", elGet el "value")]

/-- `ex_limits()` given the decoded `/limits` response body: the list of
rate dicts and the absolute dict built by successive `dict.update` with
each `_to_absolute` entry. -/
def ex_limits (limits : Element) :
    (List (List (String × String))) × List (Option String × Option String) :=
  let rate := (_findall limits "rate/limit").map _to_rate
  let absolute := (_findall limits "absolute/limit").foldl
    (fun absolute item =>
      (_to_absolute item).foldl (fun d kv => dictInsert d kv.1 kv.2) absolute)
    []
  (rate, absolute)

theorem foldl_absolute_lookup (es : List Element)
    (d : List (Option String × Option String)) (k : Option String) :
    (es.foldl (fun d el => dictInsert d (elGet el "name") (elGet el "value")) d).lookup k
      = match es.reverse.find? (fun el => elGet el "name" == k) with
        | some el => some (elGet el "value")
        | none => d.lookup k := by
  induction es generalizing d with
  | nil => simp
  | cons el es ih =>
      rw [List.foldl_cons, ih]
      rw [List.reverse_cons, List.find?_append]
      cases hfind : es.reverse.find? (fun el => elGet el "name" == k) with
      | some a => simp [Option.or]
      | none =>
          simp only [Option.or, List.find?]
          cases hp : (elGet el "name" == k) with
          | true =>
              have : elGet el "name" = k := by simpa using hp
              subst this
              simp [lookup_dictInsert_self]
          | false =>
              have hne : k ≠ elGet el "name" := by
                intro he
                subst he
                simp at hp
              simp [lookup_dictInsert_ne _ _ _ _ hne]

/-- A `/limits` response whose absolute section lists RAM twice, with
values "10" then "20". -/
def exLimitsResponse : Element :=
  .mk (qtag "limits") [] none
    [.mk (qtag "rate") [] none [],
     .mk (qtag "absolute") [] none
       [.mk (qtag "limit") [("name", "RAM"), ("value", "10")] none [],
        .mk (qtag "limit") [("name", "RAM"), ("value", "20")] none []]]

/-- C7: the absolute-limits map is the overwrite-merge of the
`{name: value}` pairs in element order, so looking up a name yields the
value of the last `absolute/limit` element carrying it; in particular
the RAM=10 then RAM=20 example ends with RAM="20". -/
theorem ex_limits_absolute_last_wins :
    (∀ (limits : Element) (k : Option String),
      ((ex_limits limits).2).lookup k =
        match (_findall limits "absolute/limit").reverse.find?
            (fun el => elGet el "name" == k) with
          | some el => some (elGet el "value")
          | none => none) ∧
    ((ex_limits exLimitsResponse).2).lookup (some "RAM") = some (some "20") := by
  constructor
  · intro limits k
    have h := foldl_absolute_lookup (_findall limits "absolute/limit") [] k
    rw [show ((ex_limits limits).2).lookup k =
      ((_findall limits "absolute/limit").foldl
        (fun d el => dictInsert d (elGet el "name") (elGet el "value")) []).lookup k
      from rfl, h]
    rfl
  · decide

/-- `_metadata_to_xml(metadata)`: `None` for an empty map, otherwise a
`metadata` element of `meta` children, each with a `key` attribute and
the value as text. -/
def _metadata_to_xml (metadata : List (String × String)) : Option Element :=
  if metadata.length = 0 then none
  else some (.mk "metadata" [] none
    (metadata.map (fun kv => .mk "meta" [("key", kv.1)] (some kv.2) [])))

/-- The `server` element built by `create_node` (without the optional
shared-ip-group attribute and file personality, which are independent of
the metadata encoding): the metadata element is appended as a child
exactly when the map is nonempty. -/
def create_node_request (name imageId flavorId : String)
    (metadata : List (String × String)) : Element :=
  .mk "server"
    [("xmlns", NAMESPACE), ("name", name), ("imageId", imageId),
     ("flavorId", flavorId)]
    none
    (match _metadata_to_xml metadata with
     | some e => [e]
     | none => [])

mutual
/-- Models `ET.XML(ET.tostring(e))` for a tree whose root declares a
default namespace through an `xmlns` attribute (as every request built
by this driver does): on reparse every element tag comes back
namespace-qualified, the `xmlns` entry is a namespace declaration rather
than an ordinary attribute, and unprefixed attributes stay unqualified. -/
def qualify (ns : String) : Element → Element
  | .mk tag attrib text children =>
      .mk ("\x7b" ++ ns ++ "\x7d" ++ tag)
        (attrib.filter (fun kv => kv.1 != "xmlns"))
        text (qualifyList ns children)

def qualifyList (ns : String) : List Element → List Element
  | [] => []
  | c :: cs => qualify ns c :: qualifyList ns cs
end

theorem qualifyList_eq_map (ns : String) (l : List Element) :
    qualifyList ns l = l.map (qualify ns) := by
  induction l with
  | nil => rfl
  | cons c cs ih => rw [qualifyList, ih, List.map_cons]

theorem dictInsert_append_of_fresh {K V : Type} [BEq K] [LawfulBEq K]
    (d : List (K × V)) (k : K) (v : V) (h : ∀ kv ∈ d, kv.1 ≠ k) :
    dictInsert d k v = d ++ [(k, v)] := by
  induction d with
  | nil => rfl
  | cons kv rest ih =>
      rw [show kv = (kv.1, kv.2) from rfl, dictInsert]
      have hne : kv.1 ≠ k := h kv (List.mem_cons_self kv rest)
      have hb : (kv.1 == k) = false := by simp [hne]
      rw [hb]
      simp only [Bool.false_eq_true, if_false, List.cons_append, List.cons.injEq,
        true_and]
      exact ih fun kv' hkv' => h kv' (List.mem_cons_of_mem kv hkv')

theorem foldl_dictInsert_of_nodup {K V : Type} [BEq K] [LawfulBEq K]
    (l : List (K × V)) (d : List (K × V))
    (hnd : (l.map Prod.fst).Nodup)
    (hfresh : ∀ kv ∈ l, ∀ kv' ∈ d, kv'.1 ≠ kv.1) :
    l.foldl (fun d kv => dictInsert d kv.1 kv.2) d = d ++ l := by
  induction l generalizing d with
  | nil => simp
  | cons kv rest ih =>
      rw [List.foldl_cons,
        dictInsert_append_of_fresh d kv.1 kv.2
          (fun kv' hkv' => hfresh kv (List.mem_cons_self kv rest) kv' hkv')]
      rw [List.map_cons, List.nodup_cons] at hnd
      have hfresh' : ∀ kv2 ∈ rest, ∀ kv' ∈ d ++ [(kv.1, kv.2)], kv'.1 ≠ kv2.1 := by
        intro kv2 h2 kv' h'
        rcases List.mem_append.mp h' with h' | h'
        · exact hfresh kv2 (List.mem_cons_of_mem kv h2) kv' h'
        · rcases List.mem_singleton.mp h' with rfl
          intro he
          exact hnd.1 (he ▸ List.mem_map_of_mem Prod.fst h2)
      rw [ih (d ++ [(kv.1, kv.2)]) hnd.2 hfresh']
      simp

/-- The metadata round trip: encode a metadata map into the `create_node`
request, serialize and reparse it (`qualify`), then extract the metadata
dict as `_to_node` does. -/
def metadata_roundtrip (name imageId flavorId : String)
    (m : List (String × String)) : List (Option String × Option String) :=
  get_meta_dict
    (_findall (qualify NAMESPACE (create_node_request name imageId flavorId m))
      "metadata/meta")

/-- C6: for every metadata map with distinct keys, encoding it to the
wire metadata element and decoding it back through the node mapper's
metadata extraction yields exactly the original key/value pairs. -/
theorem metadata_roundtrip_id (name imageId flavorId : String)
    (m : List (String × String)) (h : (m.map Prod.fst).Nodup) :
    metadata_roundtrip name imageId flavorId m =
      m.map (fun kv => (some kv.1, some kv.2)) := by
  cases m with
  | nil => rfl
  | cons kv rest =>
      have hq : qualify NAMESPACE
          (create_node_request name imageId flavorId (kv :: rest)) =
          .mk (qtag "server")
            [("name", name), ("imageId", imageId), ("flavorId", flavorId)] none
            [.mk (qtag "metadata") [] none
              ((kv :: rest).map
                (fun kv => Element.mk (qtag "meta") [("key", kv.1)] (some kv.2) []))] := by
        simp [create_node_request, _metadata_to_xml, qualify, qualifyList_eq_map,
          qtag, List.map_map, Function.comp]
      have hfind : _findall
          (qualify NAMESPACE (create_node_request name imageId flavorId (kv :: rest)))
          "metadata/meta" =
          (kv :: rest).map
            (fun kv => Element.mk (qtag "meta") [("key", kv.1)] (some kv.2) []) := by
        rw [_findall, hq,
          show fixxpath "metadata/meta" = [qtag "metadata", qtag "meta"] from by decide]
        rw [findallAux, findallAux, findallAux]
        simp [Element.children, Element.tag, List.filter_map, Function.comp]
        congr 1
        apply List.filter_eq_self.mpr
        intro a _
        simp [Function.comp, Element.tag]
      rw [metadata_roundtrip, hfind, get_meta_dict, List.foldl_map]
      have hstep : (fun (d : List (Option String × Option String)) (x : String × String)
            => dictInsert d
                (elGet (Element.mk (qtag "meta") [("key", x.1)] (some x.2) []) "key")
                (Element.mk (qtag "meta") [("key", x.1)] (some x.2) []).text) =
          (fun d x => dictInsert d (some x.1) (some x.2)) := by
        funext d x
        simp [elGet, Element.attrib, Element.text, List.lookup]
      rw [hstep]
      have hfold := foldl_dictInsert_of_nodup
        ((kv :: rest).map (fun kv => ((some kv.1 : Option String), (some kv.2 : Option String))))
        [] ?hnd ?hfresh
      case hnd =>
        rw [List.map_map]
        have : (Prod.fst ∘ fun kv : String × String =>
            ((some kv.1 : Option String), (some kv.2 : Option String))) =
            (fun kv : String × String => some kv.1) := rfl
        rw [this, show (fun kv : String × String => some kv.1) =
          (Option.some ∘ Prod.fst) from rfl, ← List.map_map]
        exact h.map (Option.some_injective String)
      case hfresh =>
        intro kv2 h2 kv' h'
        cases h'
      rw [List.foldl_map] at hfold
      simpa using hfold

/-- Witness for C6 at the example map env=prod, tier=1. -/
theorem metadata_roundtrip_id_witness :
    (([("env", "prod"), ("tier", "1")].map Prod.fst).Nodup) ∧
    metadata_roundtrip "web1" "2" "1" [("env", "prod"), ("tier", "1")] =
      [(some "env", some "prod"), (some "tier", some "1")] :=
  ⟨by decide,
   metadata_roundtrip_id "web1" "2" "1" [("env", "prod"), ("tier", "1")] (by decide)⟩

/-- `MalformedResponseError("Failed to parse XML", body=..., driver=...)`
as raised by the response codec (the driver identity carries no data). -/
structure MalformedResponseError where
  message : String
  body : String
deriving DecidableEq

mutual
/-- `element.getiterator()`: the element itself followed by all of its
descendants, in document order. -/
def getiterator : Element → List Element
  | .mk tag attrib text children =>
      .mk tag attrib text children :: getiteratorList children

def getiteratorList : List Element → List Element
  | [] => []
  | c :: cs => getiterator c ++ getiteratorList cs
end

/-- `sep.join(strings)`. -/
def joinStrings (sep : String) : List String → String
  | [] => ""
  | [s] => s
  | s :: rest => s ++ sep ++ joinStrings sep rest

/-- The text of every text-bearing element of the tree (Python keeps
`err.text` truthy: present and nonempty), in document order. -/
def truthyTexts (root : Element) : List String :=
  (getiterator root).filterMap
    (fun err => match err.text with
                | some t => if t = "" then none else some t
                | none => none)

/-- `RackspaceResponse.parse_error`, given the response status
(`self.status`), reason (`self.error`), raw body (`self.body`) and the
outcome of `ET.XML(self.body)` (`none` when the body is not well-formed
XML).  When the parse fails the source raises `MalformedResponseError`;
its later `except ExpatError: text = self.body` handler is unreachable,
because iterating the already-parsed tree raises no `ExpatError`, so the
handler is not modelled. -/
def parse_error (status : Nat) (error body : String) (parsed : Option Element) :
    Except MalformedResponseError String :=
  match parsed with
  | none => .error { message := "Failed to parse XML", body := body }
  | some root =>
      let text := joinStrings "; "
        ((getiterator root).filterMap
          (fun err => match err.text with
                      | some t => if t = "" then none else some t
                      | none => none))
      .ok (toString status ++ " " ++ error ++ " " ++ text)

/-- C5 counterexample: on an error body that fails to parse as XML,
error interpretation does not use the raw body text as the message — it
produces no message at all, failing with a MalformedResponse error
carrying the raw body. -/
theorem parse_error_unparseable_body_raises :
    parse_error 500 "Internal Server Error" "over limit" none =
      .error { message := "Failed to parse XML", body := "over limit" } ∧
    parse_error 500 "Internal Server Error" "over limit" none ≠
      .ok "500 Internal Server Error over limit" :=
  ⟨rfl, by simp [parse_error]⟩

/-- C5 (amended): for a parseable error body the message is assembled
from the status code, the reason, and the "; "-joined texts of all
text-bearing elements of the body; for a body that fails to parse as
XML, error interpretation fails with a MalformedResponse error carrying
the raw body (the raw-body fallback in the source is dead code). -/
theorem parse_error_message_assembly (status : Nat) (error body : String)
    (parsed : Option Element) :
    (parsed = none →
      parse_error status error body parsed =
        .error { message := "Failed to parse XML", body := body }) ∧
    (∀ root, parsed = some root →
      parse_error status error body parsed =
        .ok (toString status ++ " " ++ error ++ " " ++
          joinStrings "; " (truthyTexts root))) := by
  constructor
  · intro h
    subst h
    rfl
  · intro root h
    subst h
    rfl

/-- An error body tree: a fault element whose message child bears text. -/
def exFaultTree : Element :=
  .mk "itemNotFound" [("code", "404")] (some "")
    [.mk "message" [] (some "Item not found") [],
     .mk "details" [] none []]

/-- Witness for C5 at both a failed parse and a parsed fault body. -/
theorem parse_error_message_assembly_witness :
    parse_error 404 "Not Found" "<itemNotFound>" none =
      .error { message := "Failed to parse XML", body := "<itemNotFound>" } ∧
    parse_error 404 "Not Found" "<itemNotFound>" (some exFaultTree) =
      .ok ("404 Not Found Item not found") :=
  ⟨(parse_error_message_assembly 404 "Not Found" "<itemNotFound>" none).1 rfl,
   (parse_error_message_assembly 404 "Not Found" "<itemNotFound>"
      (some exFaultTree)).2 exFaultTree rfl⟩

/-- Python exceptions escaping `OpenStackResponse`: a dict `KeyError`
and the `MalformedResponseError` raised on a failed XML parse. -/
inductive PyErr where
  | keyError (key : String)
  | malformedResponse (body : String)
deriving DecidableEq

/-- What `OpenStackResponse.parse_body` returns: the raw body string, or
a parsed element tree. -/
inductive OSBody where
  | raw (body : String)
  | xml (e : Element)

/-- `OpenStackResponse.has_content_type(content_type)`: filter the
header dict down to the keys that lowercase to `content-type`, return
False when none survives, and otherwise index the filtered dict with the
literal lowercase key — raising `KeyError` when the stored key is spelt
differently — and test (case-insensitively) whether the header value
contains the wanted content type as a substring. -/
def os_has_content_type (headers : List (String × String))
    (content_type : String) : Except PyErr Bool :=
  let content_type_header :=
    pyDict (headers.filter (fun kv => pyLower kv.1 == "content-type"))
  if content_type_header.isEmpty then .ok false
  else
    match content_type_header.lookup "content-type" with
    | some v => .ok (strContains (pyLower v) (pyLower content_type))
    | none => .error (.keyError "content-type")

/-- `OpenStackResponse.parse_body`, given the outcome of `ET.XML` on the
body (`none` when the body is not well-formed XML): return the raw body
unless the content-type indicates XML and the body is nonempty, in which
case parse it, raising `MalformedResponseError` on a failed parse. -/
def os_parse_body (etXML : String → Option Element)
    (headers : List (String × String)) (body : String) : Except PyErr OSBody :=
  match os_has_content_type headers "application/xml" with
  | .error e => .error e
  | .ok hct =>
      if hct = false || body = "" then .ok (.raw body)
      else
        match etXML body with
        | some e => .ok (.xml e)
        | none => .error (.malformedResponse body)

/-- C8 counterexample: a response whose only content-type header is
stored under the capitalized key `Content-Type` with a non-XML value
does not get its raw body back — the decode fails with a `KeyError`,
because `has_content_type` filters keys case-insensitively but then
indexes the dict with the literal lowercase key. -/
theorem os_parse_body_capitalized_header_raises :
    os_parse_body (fun _ => none) [("Content-Type", "text/html")] "hello" =
      .error (.keyError "content-type") ∧
    os_parse_body (fun _ => none) [("Content-Type", "text/html")] "hello" ≠
      .ok (.raw "hello") := by
  have h1 : os_parse_body (fun _ => none) [("Content-Type", "text/html")] "hello" =
      .error (.keyError "content-type") := rfl
  refine ⟨h1, ?_⟩
  rw [h1]
  simp

/-- C8 (amended): when the content-type header key is stored in exact
lowercase form (or absent), the lenient codec behaves as specified:
XML parsing is attempted only when the header value contains
"application/xml" case-insensitively and the body is nonempty, and in
every other case the raw body is returned unparsed; a content-type
header stored under any other capitalization instead raises KeyError. -/
theorem os_parse_body_lenient (etXML : String → Option Element)
    (headers : List (String × String)) (body : String) (v : String) :
    (headers.filter (fun kv => pyLower kv.1 == "content-type") = [] →
      os_parse_body etXML headers body = .ok (.raw body)) ∧
    (headers.filter (fun kv => pyLower kv.1 == "content-type")
        = [("content-type", v)] →
      (strContains (pyLower v) "application/xml" = false →
        os_parse_body etXML headers body = .ok (.raw body)) ∧
      (body = "" → os_parse_body etXML headers body = .ok (.raw body)) ∧
      (strContains (pyLower v) "application/xml" = true → body ≠ "" →
        os_parse_body etXML headers body =
          match etXML body with
          | some e => .ok (.xml e)
          | none => .error (.malformedResponse body))) := by
  have hlow : pyLower "application/xml" = "application/xml" := by decide
  constructor
  · intro hf
    simp [os_parse_body, os_has_content_type, hf, pyDict]
  · intro hf
    have hct : os_has_content_type headers "application/xml" =
        .ok (strContains (pyLower v) "application/xml") := by
      simp [os_has_content_type, hf, pyDict, dictInsert, List.lookup, hlow]
    refine ⟨?_, ?_, ?_⟩
    · intro hsub
      simp [os_parse_body, hct, hsub]
    · intro hbody
      simp [os_parse_body, hct, hbody]
    · intro hsub hbody
      simp [os_parse_body, hct, hsub, hbody]

/-- Witness for C8: a lowercase JSON content-type header gets the raw
body back; a lowercase XML content-type header has the body parsed. -/
theorem os_parse_body_lenient_witness :
    os_parse_body (fun _ => none) [("content-type", "application/json")] "raw text"
      = .ok (.raw "raw text") ∧
    os_parse_body (fun _ => some exFaultTree)
      [("content-type", "application/xml; charset=UTF-8")] "<itemNotFound/>"
      = .ok (.xml exFaultTree) :=
  ⟨((os_parse_body_lenient (fun _ => none) [("content-type", "application/json")]
      "raw text" "application/json").2 (by decide)).1 (by decide),
   ((os_parse_body_lenient (fun _ => some exFaultTree)
      [("content-type", "application/xml; charset=UTF-8")] "<itemNotFound/>"
      "application/xml; charset=UTF-8").2 (by decide)).2.2 (by decide) (by decide)⟩

end Rackspace
